import Mathlib

/-!
Verification of the JOSE JWE envelope engine (flattened and general JWE
encryption, JWT verification guard, IV length check) against its
natural-language specification.

The definitions below are a shallow embedding of the TypeScript sources:
`jwe/flattened/encrypt.ts` (classes `FlattenedEncrypt` and `GeneralEncrypt`),
the `jwtVerify` entry point, and `checkIvLength`.  JavaScript objects become
association lists, JavaScript truthiness is modelled explicitly, and the
external cryptographic provider (key management, content encryption, random
generation) is abstracted as an oracle structure whose invocations are
recorded in a trace, so that claims of the form "no primitive is invoked
before this check" become statements about the trace.
-/

/-- Byte sequences (`Uint8Array` contents). -/
abbrev Bytes := List Nat

/-- Opaque key handle (`KeyLike`): the engine never inspects keys itself. -/
abbrev Key := Nat

/-- JSON values as they appear in JOSE header parameters. -/
inductive JValue where
  | str (s : String)
  | bool (b : Bool)
  | num (n : Int)
  | null
  | arr (vs : List JValue)
  | obj (kvs : List (String × JValue))

/-- A JavaScript header object: ordered association list of parameters. -/
abbrev Header := List (String × JValue)

/-- JavaScript truthiness of a possibly-absent value: `undefined`, `null`,
`false`, `0` and the empty string are falsy; every object is truthy. -/
def jsTruthy : Option JValue → Bool
  | none => false
  | some (.str s) => s ≠ ""
  | some (.bool b) => b
  | some (.num n) => n ≠ 0
  | some .null => false
  | some (.arr _) => true
  | some (.obj _) => true

/-- Property lookup on a JavaScript object built by spreads: the last
occurrence of a key wins, mirroring object spread semantics. -/
def jsLookup (h : Header) (k : String) : Option JValue :=
  match h with
  | [] => none
  | (k', v) :: rest => (jsLookup rest k).or (if k' = k then some v else none)

/-- The merged JOSE header `\x7b...a, ...b, ...c\x7d` (spread order). -/
def jsMerge3 (a b c : Option Header) : Header :=
  a.getD [] ++ b.getD [] ++ c.getD []

/-- Keys of a header slot, deduplicated (a JS object has unique keys). -/
def slotKeys (h : Option Header) : List String :=
  ((h.getD []).map Prod.fst).dedup

/-- Modelled from the spec: `lib/is_disjoint.ts` is not among the sources.
The spec says header parameter names must be disjoint across the three
header slots and that merging fails on any duplicate key across slots. -/
def isDisjoint (a b c : Option Header) : Bool :=
  decide (slotKeys a ++ slotKeys b ++ slotKeys c).Nodup

/-- Modelled from the spec: `lib/validate_crit.ts` is not among the sources.
The spec says `checkCrit` fails if any name in `crit` is absent from the
merged header or absent from the caller's allow-list (here `critOption`).
Returns `true` when the check passes. -/
def validateCrit (critOption : Option (List String)) (_protectedHeader : Option Header)
    (joseHeader : Header) : Bool :=
  match jsLookup joseHeader "crit" with
  | none => true
  | some (.arr vs) =>
    (vs.all fun v => match v with | .str s => s ≠ "" | _ => false) &&
    ((vs.filterMap fun v => match v with | .str s => some s | _ => none).all fun n =>
      (joseHeader.map Prod.fst).contains n && (critOption.getD []).contains n)
  | some _ => false

/-- UTF-8 bytes of a string (all strings handled here are ASCII). -/
def textEncode (s : String) : Bytes := s.data.map Char.toNat

/-- The base64url alphabet. -/
def base64urlChars : List Char :=
  "ABCDEFGHIJKLMNOPQRSTUVWXYZabcdefghijklmnopqrstuvwxyz0123456789-_".data

/-- One base64url digit. -/
def b64c (n : Nat) : Char := base64urlChars.getD n 'A'

/-- Modelled from the spec: `runtime/base64url.ts` is not among the sources.
The spec fixes it as base64url encoding without padding (RFC 4648 §5). -/
def base64urlEncode : Bytes → String
  | [] => ""
  | [a] => String.mk [b64c (a / 4), b64c (a % 4 * 16)]
  | [a, b] => String.mk [b64c (a / 4), b64c (a % 4 * 16 + b / 16), b64c (b % 16 * 4)]
  | a :: b :: c :: rest =>
    String.mk [b64c (a / 4), b64c (a % 4 * 16 + b / 16), b64c (b % 16 * 4 + c / 64),
      b64c (c % 64)] ++ base64urlEncode rest

/-- JSON string escaping (quote and backslash; headers here are ASCII). -/
def jsonEscapeChar (c : Char) : String :=
  if c = '"' then "\\\"" else if c = '\\' then "\\\\" else String.mk [c]

/-- JSON text for one string literal. -/
def jsonEscape (s : String) : String :=
  "\"" ++ String.join (s.data.map jsonEscapeChar) ++ "\""

mutual

/-- `JSON.stringify` on a header value. -/
def jsonStringify : JValue → String
  | .str s => jsonEscape s
  | .bool b => if b then "true" else "false"
  | .num n => toString n
  | .null => "null"
  | .arr vs => "[" ++ jsonArrBody vs ++ "]"
  | .obj kvs => "\x7b" ++ jsonObjBody kvs ++ "\x7d"

/-- Comma-separated serialization of a JSON array's elements. -/
def jsonArrBody : List JValue → String
  | [] => ""
  | [v] => jsonStringify v
  | v :: v' :: vs => jsonStringify v ++ "," ++ jsonArrBody (v' :: vs)

/-- Comma-separated serialization of a JSON object's members. -/
def jsonObjBody : List (String × JValue) → String
  | [] => ""
  | [(k, v)] => jsonEscape k ++ ":" ++ jsonStringify v
  | (k, v) :: m :: ms =>
    jsonEscape k ++ ":" ++ jsonStringify v ++ "," ++ jsonObjBody (m :: ms)

end

/-- `JSON.stringify` of a header object. -/
def headerStringify (h : Header) : String := jsonStringify (.obj h)

example : jsonStringify (.obj [("alg", .str "dir")]) = "\x7b\"alg\":\"dir\"\x7d" := by rfl
example : base64urlEncode [104, 105] = "aGk" := by rfl
example : jsLookup [("a", .num 1), ("a", .num 2)] "a" = some (.num 2) := by rfl
example : isDisjoint (some [("a", .null)]) (some [("a", .null)]) none = false := by rfl

/-! ## Errors, provider oracles and the invocation trace -/

/-- The error classes raised by the engine (`util/errors.ts` plus `TypeError`). -/
inductive JoseError where
  | jweInvalid (message : String)
  | joseNotSupported (message : String)
  | typeError (message : String)
  | jwtInvalid (message : String)
deriving DecidableEq

/-- Key-management parameters (`JWEKeyManagementHeaderParameters`); only the
PBES2 iteration count `p2c` is ever set by the code under verification. -/
structure KMParams where
  p2c : Option Nat := none
deriving DecidableEq

/-- Result of the key-management dispatcher `encryptKeyManagement`. -/
structure KMResult where
  cek : Bytes
  encryptedKey : Option Bytes := none
  parameters : Option Header := none

/-- The external cryptographic provider and the helper modules that perform
key management, abstracted as pure functions.  `seal` returns
`(ciphertext, tag)` like `runtime/encrypt.ts`; `checkKeyTypeOk` stands for
`checkKeyType`, which throws when it returns `false`. -/
structure Oracles where
  generateCek : String → Bytes
  generateIv : String → Bytes
  encryptKeyManagement : String → String → Key → Option Bytes → Option KMParams → KMResult
  encrypt : String → Bytes → Bytes → Bytes → Bytes → Bytes × Bytes
  deflate : Bytes → Bytes
  normalizeKey : Key → String → Key
  checkKeyTypeOk : String → Key → Bool

/-- One recorded invocation of a key-generation, key-management or
content-encryption primitive.  `keyManagement` records the content
encryption key handed to the dispatcher (its fourth argument);
`encrypt` records all arguments of the content-encryption (seal) call. -/
inductive PrimCall where
  | genCek (enc : String)
  | genIv (enc : String)
  | keyManagement (alg enc : String) (cekArg : Option Bytes)
  | encrypt (enc : String) (plaintext cek iv aad : Bytes)
  | deflateCall

/-! ## The flattened JWE builder (`class FlattenedEncrypt`) -/

/-- The private fields of a `FlattenedEncrypt` instance; `none` models an
unset (`undefined`) field. -/
structure FlattenedEncrypt where
  plaintext : Bytes
  protectedHeader : Option Header := none
  sharedUnprotectedHeader : Option Header := none
  unprotectedHeader : Option Header := none
  aad : Option Bytes := none
  cek : Option Bytes := none
  iv : Option Bytes := none
  keyManagementParameters : Option KMParams := none

/-- `setKeyManagementParameters`: guarded against a second call. -/
def FlattenedEncrypt.setKeyManagementParameters (st : FlattenedEncrypt)
    (parameters : Option KMParams) : Except JoseError FlattenedEncrypt :=
  if st.keyManagementParameters.isSome then
    .error (.typeError "setKeyManagementParameters can only be called once")
  else .ok { st with keyManagementParameters := parameters }

/-- `setProtectedHeader`: guarded against a second call. -/
def FlattenedEncrypt.setProtectedHeader (st : FlattenedEncrypt)
    (protectedHeader : Option Header) : Except JoseError FlattenedEncrypt :=
  if st.protectedHeader.isSome then
    .error (.typeError "setProtectedHeader can only be called once")
  else .ok { st with protectedHeader := protectedHeader }

/-- `setSharedUnprotectedHeader`: guarded against a second call. -/
def FlattenedEncrypt.setSharedUnprotectedHeader (st : FlattenedEncrypt)
    (sharedUnprotectedHeader : Option Header) : Except JoseError FlattenedEncrypt :=
  if st.sharedUnprotectedHeader.isSome then
    .error (.typeError "setSharedUnprotectedHeader can only be called once")
  else .ok { st with sharedUnprotectedHeader := sharedUnprotectedHeader }

/-- `setUnprotectedHeader`: guarded against a second call. -/
def FlattenedEncrypt.setUnprotectedHeader (st : FlattenedEncrypt)
    (unprotectedHeader : Option Header) : Except JoseError FlattenedEncrypt :=
  if st.unprotectedHeader.isSome then
    .error (.typeError "setUnprotectedHeader can only be called once")
  else .ok { st with unprotectedHeader := unprotectedHeader }

/-- `setAdditionalAuthenticatedData`: the source (lines 142-145) assigns
without any set-once guard, so a repeated call silently overwrites. -/
def FlattenedEncrypt.setAdditionalAuthenticatedData (st : FlattenedEncrypt)
    (aad : Option Bytes) : Except JoseError FlattenedEncrypt :=
  .ok { st with aad := aad }

/-- `setContentEncryptionKey`: guarded against a second call. -/
def FlattenedEncrypt.setContentEncryptionKey (st : FlattenedEncrypt)
    (cek : Option Bytes) : Except JoseError FlattenedEncrypt :=
  if st.cek.isSome then
    .error (.typeError "setContentEncryptionKey can only be called once")
  else .ok { st with cek := cek }

/-- `setInitializationVector`: guarded against a second call. -/
def FlattenedEncrypt.setInitializationVector (st : FlattenedEncrypt)
    (iv : Option Bytes) : Except JoseError FlattenedEncrypt :=
  if st.iv.isSome then
    .error (.typeError "setInitializationVector can only be called once")
  else .ok { st with iv := iv }

/-- The flattened JWE object produced by a successful `encrypt`. -/
structure FlattenedJWE where
  ciphertext : String
  iv : String
  tag : String
  encrypted_key : Option String := none
  aad : Option String := none
  «protected» : Option String := none
  unprotected : Option Header := none
  header : Option Header := none

def msgNoHeader : String :=
  "either setProtectedHeader, setUnprotectedHeader, or sharedUnprotectedHeader must be called before #encrypt()"
def msgDisjoint : String :=
  "JWE Shared Protected, JWE Shared Unprotected and JWE Per-Recipient Header Parameter names must be disjoint"
def msgCrit : String := "JWE crit Header Parameter check failed"
def msgZipProtected : String :=
  "JWE \"zip\" (Compression Algorithm) Header MUST be integrity protected"
def msgZipUnsupported : String :=
  "unsupported JWE \"zip\" (Compression Algorithm) Header Parameter value"
def msgAlgInvalid : String := "JWE \"alg\" (Algorithm) Header Parameter missing or invalid"
def msgEncInvalid : String :=
  "JWE \"enc\" (Encryption Algorithm) Header Parameter missing or invalid"
def msgDirCek : String :=
  "setContentEncryptionKey cannot be called when using Direct Encryption"
def msgEcdhCek : String :=
  "setContentEncryptionKey cannot be called when using Direct Key Agreement"

/-- Whether a merged header carries `zip` with the exact string `"DEF"`
(the JavaScript strict comparison `joseHeader.zip === "DEF"`). -/
def zipIsDEF (h : Header) : Bool :=
  match jsLookup h "zip" with
  | some (.str s) => s = "DEF"
  | _ => false

/-- base64url of the serialized protected header (one segment of the JWE):
`base64url(JSON.stringify(protectedHeader))`. -/
def protEncode (h : Header) : String := base64urlEncode (textEncode (headerStringify h))

/-- The bytes of the protected-header segment:
`encoder.encode(base64url(JSON.stringify(header)))`, or
`encoder.encode("")` when there is no protected header. -/
def protectedBytesOf (ph : Option Header) : Bytes :=
  match ph with
  | some h => textEncode (protEncode h)
  | none => []

/-- The Additional Authenticated Data handed to content encryption:
`ASCII(base64url(protectedHeaderJSON))` (empty when there is no protected
header), extended with `"." ++ ASCII(base64url(aad))` when caller-supplied
AAD is present (`concat(protectedHeader, encoder.encode("."),
encoder.encode(aadMember))` in the source). -/
def aadBytes (ph : Option Header) (aad : Option Bytes) : Bytes :=
  protectedBytesOf ph
  ++ (match aad with
    | some a => textEncode "." ++ textEncode (base64urlEncode a)
    | none => [])

/-- Merging key-management `parameters` into the protected header:
`this.setProtectedHeader(parameters)` when no protected header exists,
otherwise the spread `\x7b...protectedHeader, ...parameters\x7d`. -/
def mergeKmParameters (ph : Option Header) (params : Option Header) : Option Header :=
  match params with
  | none => ph
  | some ps =>
    match ph with
    | none => some ps
    | some h => some (h ++ ps)

/-- The tail of `FlattenedEncrypt.encrypt` after all validation has
passed: key management, merging returned header parameters into the
protected header, IV generation (`this._iv ||= generateIv(enc)`), AAD
construction, optional deflate when `zip` is `"DEF"`, the content
encryption call, and assembly of the flattened JWE object. -/
def FlattenedEncrypt.sealStep (st : FlattenedEncrypt) (k0 : Key) (o : Oracles)
    (jh : Header) (alg enc : String) : Except JoseError FlattenedJWE × List PrimCall :=
  let km := o.encryptKeyManagement alg enc k0 st.cek st.keyManagementParameters
  let ph' := mergeKmParameters st.protectedHeader km.parameters
  let iv := st.iv.getD (o.generateIv enc)
  let additionalData := aadBytes ph' st.aad
  let plaintext' := if zipIsDEF jh then o.deflate st.plaintext else st.plaintext
  let sealed := o.encrypt enc plaintext' km.cek iv additionalData
  (.ok {
    ciphertext := base64urlEncode sealed.1
    iv := base64urlEncode iv
    tag := base64urlEncode sealed.2
    encrypted_key := km.encryptedKey.map base64urlEncode
    aad := match st.aad.map base64urlEncode with
      | some m => if m = "" then none else some m
      | none => none
    «protected» := ph'.map protEncode
    unprotected := st.sharedUnprotectedHeader
    header := st.unprotectedHeader },
  [.keyManagement alg enc st.cek]
    ++ (if st.iv.isNone then [.genIv enc] else [])
    ++ (if zipIsDEF jh then [.deflateCall] else [])
    ++ [.encrypt enc plaintext' km.cek iv additionalData])

/-- The part of `FlattenedEncrypt.encrypt` after the header-configuration,
disjointness, crit and zip-placement checks: `alg`/`enc` validation and the
explicit-cek guards for `dir`/`ECDH-ES`, then `sealStep`. -/
def FlattenedEncrypt.encryptBody (st : FlattenedEncrypt) (key : Key) (o : Oracles)
    (joseHeader : Header) : Except JoseError FlattenedJWE × List PrimCall :=
  match jsLookup joseHeader "alg" with
  | some (.str alg) =>
    if alg = "" then (.error (.jweInvalid msgAlgInvalid), [])
    else
      match jsLookup joseHeader "enc" with
      | some (.str enc) =>
        if enc = "" then (.error (.jweInvalid msgEncInvalid), [])
        else if alg = "dir" && st.cek.isSome then (.error (.typeError msgDirCek), [])
        else if alg = "ECDH-ES" && st.cek.isSome then (.error (.typeError msgEcdhCek), [])
        else FlattenedEncrypt.sealStep st key o joseHeader alg enc
      | _ => (.error (.jweInvalid msgEncInvalid), [])
  | _ => (.error (.jweInvalid msgAlgInvalid), [])

def FlattenedEncrypt.encrypt (st : FlattenedEncrypt) (key : Key)
    (critOption : Option (List String)) (o : Oracles) :
    Except JoseError FlattenedJWE × List PrimCall :=
  if st.protectedHeader.isNone && st.unprotectedHeader.isNone
      && st.sharedUnprotectedHeader.isNone then
    (.error (.jweInvalid msgNoHeader), [])
  else if !(isDisjoint st.protectedHeader st.unprotectedHeader st.sharedUnprotectedHeader) then
    (.error (.jweInvalid msgDisjoint), [])
  else
    let joseHeader := jsMerge3 st.protectedHeader st.unprotectedHeader st.sharedUnprotectedHeader
    if !(validateCrit critOption st.protectedHeader joseHeader) then
      (.error (.jweInvalid msgCrit), [])
    else
      match jsLookup joseHeader "zip" with
      | some z =>
        if !(jsTruthy (st.protectedHeader.bind fun h => jsLookup h "zip")) then
          (.error (.jweInvalid msgZipProtected), [])
        else
          match z with
          | .str s =>
            if s = "DEF" then FlattenedEncrypt.encryptBody st key o joseHeader
            else (.error (.joseNotSupported msgZipUnsupported), [])
          | _ => (.error (.joseNotSupported msgZipUnsupported), [])
      | none => FlattenedEncrypt.encryptBody st key o joseHeader

/-! ## The general JWE builder (`class GeneralEncrypt`) -/

/-- An `IndividualRecipient`: per-recipient unprotected header, key and
per-recipient crit allow-list (from its `options`). -/
structure IndividualRecipient where
  key : Key
  unprotectedHeader : Option Header := none
  crit : Option (List String) := none

/-- `Recipient.setUnprotectedHeader`: guarded against a second call. -/
def IndividualRecipient.setUnprotectedHeader (r : IndividualRecipient)
    (unprotectedHeader : Option Header) : Except JoseError IndividualRecipient :=
  if r.unprotectedHeader.isSome then
    .error (.typeError "setUnprotectedHeader can only be called once")
  else .ok { r with unprotectedHeader := unprotectedHeader }

/-- The private fields of a `GeneralEncrypt` instance. -/
structure GeneralEncrypt where
  plaintext : Bytes
  recipients : List IndividualRecipient := []
  protectedHeader : Option Header := none
  unprotectedHeader : Option Header := none
  aad : Option Bytes := none

/-- `addRecipient`: appends a fresh recipient. -/
def GeneralEncrypt.addRecipient (st : GeneralEncrypt) (key : Key)
    (crit : Option (List String)) : GeneralEncrypt :=
  { st with recipients := st.recipients ++ [{ key := key, crit := crit }] }

/-- `GeneralEncrypt.setProtectedHeader`: guarded against a second call. -/
def GeneralEncrypt.setProtectedHeader (st : GeneralEncrypt)
    (protectedHeader : Option Header) : Except JoseError GeneralEncrypt :=
  if st.protectedHeader.isSome then
    .error (.typeError "setProtectedHeader can only be called once")
  else .ok { st with protectedHeader := protectedHeader }

/-- `GeneralEncrypt.setSharedUnprotectedHeader`: guarded against a second call. -/
def GeneralEncrypt.setSharedUnprotectedHeader (st : GeneralEncrypt)
    (sharedUnprotectedHeader : Option Header) : Except JoseError GeneralEncrypt :=
  if st.unprotectedHeader.isSome then
    .error (.typeError "setSharedUnprotectedHeader can only be called once")
  else .ok { st with unprotectedHeader := sharedUnprotectedHeader }

/-- `GeneralEncrypt.setAdditionalAuthenticatedData`: the source assigns
without any set-once guard, so a repeated call silently overwrites. -/
def GeneralEncrypt.setAdditionalAuthenticatedData (st : GeneralEncrypt)
    (aad : Option Bytes) : Except JoseError GeneralEncrypt :=
  .ok { st with aad := aad }

/-- One recipient entry of a General JWE object. -/
structure RecipientOut where
  encrypted_key : Option String := none
  header : Option Header := none

/-- The General JWE object produced by a successful `encrypt`. -/
structure GeneralJWE where
  ciphertext : String
  iv : String
  tag : String
  recipients : List RecipientOut
  aad : Option String := none
  «protected» : Option String := none
  unprotected : Option Header := none

/-- JavaScript `if (x) target.y = x` for a string field: an empty string is
falsy, so it is not copied. -/
def strField (x : Option String) : Option String :=
  match x with
  | some s => if s = "" then none else some s
  | none => none

def msgNoRecipient : String := "at least one recipient must be added"
def msgDisjointG : String :=
  "JWE Protected, JWE Shared Unprotected and JWE Per-Recipient Header Parameter names must be disjoint"
def msgDirEcdhSingle : String :=
  "\"dir\" and \"ECDH-ES\" alg may only be used with a single recipient"
def msgEncSame : String :=
  "JWE \"enc\" (Encryption Algorithm) Header Parameter must be the same for all recipients"
def msgZipGeneral : String :=
  "JWE \"zip\" (Compression Algorithm) Header Parameter is not supported."
def msgKeyType : String := "invalid key for this operation"

/-- The per-recipient validation loop of `GeneralEncrypt.encrypt` (source
order: disjointness, `alg` present as nonempty string, `dir`/`ECDH-ES`
rejected, `enc` present as nonempty string, `enc` equal for all recipients,
crit validation, `zip` unsupported).  `acc` is the `enc` seen so far; the
result is the common `enc` (always set when the list is nonempty). -/
def generalValidate (p u : Option Header) :
    List IndividualRecipient → Option String → Except JoseError (Option String)
  | [], acc => .ok acc
  | r :: rs, acc =>
    if !(isDisjoint p u r.unprotectedHeader) then .error (.jweInvalid msgDisjointG)
    else
      let joseHeader := jsMerge3 p u r.unprotectedHeader
      match jsLookup joseHeader "alg" with
      | some (.str alg) =>
        if alg = "" then .error (.jweInvalid msgAlgInvalid)
        else if alg = "dir" ∨ alg = "ECDH-ES" then .error (.jweInvalid msgDirEcdhSingle)
        else
          match jsLookup joseHeader "enc" with
          | some (.str enc) =>
            if enc = "" then .error (.jweInvalid msgEncInvalid)
            else
              match acc with
              | some e =>
                if e ≠ enc then .error (.jweInvalid msgEncSame)
                else
                  if !(validateCrit r.crit p joseHeader) then .error (.jweInvalid msgCrit)
                  else if (jsLookup joseHeader "zip").isSome then
                    .error (.joseNotSupported msgZipGeneral)
                  else generalValidate p u rs acc
              | none =>
                if !(validateCrit r.crit p joseHeader) then .error (.jweInvalid msgCrit)
                else if (jsLookup joseHeader "zip").isSome then
                  .error (.joseNotSupported msgZipGeneral)
                else generalValidate p u rs (some enc)
          | _ => .error (.jweInvalid msgEncInvalid)
      | _ => .error (.jweInvalid msgAlgInvalid)

/-- JavaScript `a || b` on possibly-absent header values. -/
def jsOr2 (a b : Option JValue) : Option JValue := if jsTruthy a then a else b

/-- The key-management loop of `GeneralEncrypt.encrypt` for recipients
`1..n`: per recipient it computes the PBES2 `p2c` (`2048 + i`), resolves
`alg` from the three header slots (per-recipient, then protected, then
shared unprotected), checks the key type, normalizes the key and performs
key management against the shared `cek`, emitting `encrypted_key` and the
per-recipient `header`. -/
def generalKmLoop (p u : Option Header) (enc : String) (cek : Bytes) (o : Oracles) :
    List IndividualRecipient → Nat → (Except JoseError (List RecipientOut)) × List PrimCall
  | [], _ => (.ok [], [])
  | r :: rs, i =>
    let joseHeader := jsMerge3 p u r.unprotectedHeader
    let pbes2 : Bool := match jsLookup joseHeader "alg" with
      | some (.str s) => s.startsWith "PBES2"
      | _ => false
    let p2c : Option Nat := if pbes2 then some (2048 + i) else none
    let alg := match jsOr2 (r.unprotectedHeader.bind fun h => jsLookup h "alg")
        (jsOr2 (p.bind fun h => jsLookup h "alg") (u.bind fun h => jsLookup h "alg")) with
      | some (.str s) => s
      | _ => ""
    if !(o.checkKeyTypeOk (if alg = "dir" then enc else alg) r.key) then
      (.error (.typeError msgKeyType), [])
    else
      let k := o.normalizeKey r.key alg
      let km := o.encryptKeyManagement alg enc k (some cek) (some { p2c := p2c })
      let target : RecipientOut := {
        encrypted_key := some (base64urlEncode (km.encryptedKey.getD []))
        header := if r.unprotectedHeader.isSome || km.parameters.isSome then
            some ((r.unprotectedHeader.getD []) ++ (km.parameters.getD []))
          else none }
      let rest := generalKmLoop p u enc cek o rs (i + 1)
      match rest.1 with
      | .error e => (.error e, .keyManagement alg enc (some cek) :: rest.2)
      | .ok targets => (.ok (target :: targets), .keyManagement alg enc (some cek) :: rest.2)

/-- `GeneralEncrypt.encrypt`.  A single recipient delegates to a flattened
encryption over the same headers.  Multiple recipients are first validated
(`generalValidate`), then one cek is generated; recipient 0 runs the full
flattened encryption with that cek and recipients `1..n` run only key
management against it (`generalKmLoop`). -/
def GeneralEncrypt.encrypt (st : GeneralEncrypt) (o : Oracles) :
    Except JoseError GeneralJWE × List PrimCall :=
  match st.recipients with
  | [] => (.error (.jweInvalid msgNoRecipient), [])
  | [r] =>
    let built : Except JoseError FlattenedEncrypt :=
      (FlattenedEncrypt.setAdditionalAuthenticatedData { plaintext := st.plaintext } st.aad).bind
        fun s1 => (s1.setProtectedHeader st.protectedHeader).bind
        fun s2 => (s2.setSharedUnprotectedHeader st.unprotectedHeader).bind
        fun s3 => s3.setUnprotectedHeader r.unprotectedHeader
    match built with
    | .error e => (.error e, [])
    | .ok stF =>
      match stF.encrypt r.key r.crit o with
      | (.error e, tr) => (.error e, tr)
      | (.ok fl, tr) =>
        (.ok {
          ciphertext := fl.ciphertext
          iv := fl.iv
          tag := fl.tag
          recipients := [{ encrypted_key := strField fl.encrypted_key, header := fl.header }]
          aad := strField fl.aad
          «protected» := strField fl.«protected»
          unprotected := fl.unprotected }, tr)
  | r0 :: r1 :: rs =>
    match generalValidate st.protectedHeader st.unprotectedHeader (r0 :: r1 :: rs) none with
    | .error e => (.error e, [])
    | .ok encOpt =>
      let enc := encOpt.getD ""
      let cek := o.generateCek enc
      let jose0 := jsMerge3 st.protectedHeader st.unprotectedHeader r0.unprotectedHeader
      let pbes20 : Bool := match jsLookup jose0 "alg" with
        | some (.str s) => s.startsWith "PBES2"
        | _ => false
      let p2c0 : Option Nat := if pbes20 then some (2048 + 0) else none
      let built : Except JoseError FlattenedEncrypt :=
        (FlattenedEncrypt.setAdditionalAuthenticatedData { plaintext := st.plaintext } st.aad).bind
          fun s1 => (s1.setContentEncryptionKey (some cek)).bind
          fun s2 => (s2.setProtectedHeader st.protectedHeader).bind
          fun s3 => (s3.setSharedUnprotectedHeader st.unprotectedHeader).bind
          fun s4 => (s4.setUnprotectedHeader r0.unprotectedHeader).bind
          fun s5 => s5.setKeyManagementParameters (some { p2c := p2c0 })
      match built with
      | .error e => (.error e, [.genCek enc])
      | .ok stF =>
        match stF.encrypt r0.key r0.crit o with
        | (.error e, tr) => (.error e, .genCek enc :: tr)
        | (.ok fl, tr0) =>
          let target0 : RecipientOut := { encrypted_key := fl.encrypted_key, header := fl.header }
          let rest := generalKmLoop st.protectedHeader st.unprotectedHeader enc cek o (r1 :: rs) 1
          match rest.1 with
          | .error e => (.error e, .genCek enc :: (tr0 ++ rest.2))
          | .ok targets =>
            (.ok {
              ciphertext := fl.ciphertext
              iv := fl.iv
              tag := fl.tag
              recipients := target0 :: targets
              aad := strField fl.aad
              «protected» := strField fl.«protected»
              unprotected := fl.unprotected }, .genCek enc :: (tr0 ++ rest.2))

/-! ## IV length check (`lib/check_iv_length.js`) -/

def msgIvLength : String := "Invalid Initialization Vector length"
def msgIvUnsupported : String := "Unsupported JWE Encryption Algorithm"

/-- Two's-complement reading of a 32-bit pattern (JavaScript `ToInt32`). -/
def toInt32 (n : Nat) : Int :=
  let m : Nat := n % 2 ^ 32
  if m < 2 ^ 31 then (m : Int) else (m : Int) - 2 ^ 32

/-- JavaScript `n << 3` for a nonnegative integer `n`: the shift operates
on the 32-bit pattern of `n` and yields a signed 32-bit result. -/
def jsShl3 (n : Nat) : Int := toInt32 (n * 8 % (2 ^ 32 : Nat))

/-- Modelled from the spec: `lib/iv.ts` (`bitLength`) is not among the
sources.  The spec fixes the algorithm-mandated IV size per `enc`
(`A128GCM` is 96 bits); the GCM family uses 96 bits, the CBC-HMAC family
128 bits, and an unrecognized `enc` fails with `JOSENotSupported`. -/
def bitLength (enc : String) : Option Nat :=
  if enc = "A128GCM" ∨ enc = "A192GCM" ∨ enc = "A256GCM"
      ∨ enc = "A128GCMKW" ∨ enc = "A192GCMKW" ∨ enc = "A256GCMKW" then some 96
  else if enc = "A128CBC-HS256" ∨ enc = "A192CBC-HS384" ∨ enc = "A256CBC-HS512" then some 128
  else none

/-- `checkIvLength`: rejects an IV whose length in bits — as computed by
the JavaScript expression `iv.length << 3` — differs from the mandated bit
length for `enc`. -/
def checkIvLength (enc : String) (iv : Bytes) : Except JoseError Unit :=
  match bitLength enc with
  | none => .error (.joseNotSupported msgIvUnsupported)
  | some bits =>
    if jsShl3 iv.length ≠ (bits : Int) then .error (.jweInvalid msgIvLength)
    else .ok ()

/-! ## `jwtVerify` (unencoded-payload guard) -/

/-- The result of a successful `compactVerify` call. -/
structure CompactVerifyResult where
  payload : Bytes
  protectedHeader : Header
  key : Key

/-- `protectedHeader.crit?.includes(name)` for a `crit` array. -/
def critIncludes (h : Header) (name : String) : Bool :=
  match jsLookup h "crit" with
  | some (.arr vs) => vs.any fun v => match v with | .str s => s = name | _ => false
  | _ => false

/-- `protectedHeader.b64 === false` (strict equality with the boolean). -/
def b64IsFalse (h : Header) : Bool :=
  match jsLookup h "b64" with
  | some (.bool false) => true
  | _ => false

def msgUnencoded : String := "JWTs MUST NOT use unencoded payload"

/-- `jwtVerify`, embedded from its source with `compactVerify` abstracted
as its successful result `verified` (modelled from the spec §4.4: it yields
the verified payload and protected header, and its crit validation
guarantees that a `crit` parameter, when present, is an array of strings)
and `lib/jwt_claims_set` abstracted as the oracle `claimsSet`.  On success
it returns the claims-set payload and the protected header. -/
def jwtVerify (verified : CompactVerifyResult)
    (claimsSet : Header → Bytes → Except JoseError Header) :
    Except JoseError (Header × Header) :=
  if critIncludes verified.protectedHeader "b64" && b64IsFalse verified.protectedHeader then
    .error (.jwtInvalid msgUnencoded)
  else
    match claimsSet verified.protectedHeader verified.payload with
    | .error e => .error e
    | .ok payload => .ok (payload, verified.protectedHeader)

/-! ## A concrete provider instance, used to evaluate the embedding at
concrete inputs in counterexamples and witnesses -/

/-- A concrete provider: key management echoes the supplied cek (or makes
one up), content encryption returns fixed bytes. -/
def oraclesX : Oracles := {
  generateCek := fun _ => [7]
  generateIv := fun _ => [9]
  encryptKeyManagement := fun _ _ _ cek _ => { cek := cek.getD [7], encryptedKey := some [5] }
  encrypt := fun _ _ _ _ _ => ([1], [2])
  deflate := fun b => b
  normalizeKey := fun k _ => k
  checkKeyTypeOk := fun _ _ => true }

/-! ## Helper definitions for the statements -/

/-- The merged JOSE header of a flattened encryption, in source spread
order (protected, per-recipient unprotected, shared unprotected). -/
def mergedHeaderOf (st : FlattenedEncrypt) : Header :=
  jsMerge3 st.protectedHeader st.unprotectedHeader st.sharedUnprotectedHeader

/-- The `zip` value of the protected header slot, if any. -/
def protZip (st : FlattenedEncrypt) : Option JValue :=
  st.protectedHeader.bind fun h => jsLookup h "zip"

/-- The merged `alg` of a recipient of a general encryption, when it is a
nonempty string (the only form accepted by the validation loop). -/
def mergedAlgOpt (p u : Option Header) (r : IndividualRecipient) : Option String :=
  match jsLookup (jsMerge3 p u r.unprotectedHeader) "alg" with
  | some (.str s) => if s = "" then none else some s
  | _ => none

/-- The merged `enc` of a recipient of a general encryption, when it is a
nonempty string. -/
def mergedEncOpt (p u : Option Header) (r : IndividualRecipient) : Option String :=
  match jsLookup (jsMerge3 p u r.unprotectedHeader) "enc" with
  | some (.str s) => if s = "" then none else some s
  | _ => none

/-- A header parameter name occurring in more than one of the three slots. -/
def sharedAcrossSlots (k : String) (a b c : Option Header) : Prop :=
  (k ∈ slotKeys a ∧ k ∈ slotKeys b) ∨ (k ∈ slotKeys a ∧ k ∈ slotKeys c)
    ∨ (k ∈ slotKeys b ∧ k ∈ slotKeys c)

def PrimCall.isGenCek : PrimCall → Bool
  | .genCek _ => true
  | _ => false

def PrimCall.isKeyManagement : PrimCall → Bool
  | .keyManagement _ _ _ => true
  | _ => false

def PrimCall.isEncrypt : PrimCall → Bool
  | .encrypt _ _ _ _ _ => true
  | _ => false

/-- The cek argument recorded on a `keyManagement` invocation. -/
def PrimCall.cekArgOf : PrimCall → Option Bytes
  | .keyManagement _ _ c => c
  | _ => none

/-! ## Lemmas about lookup and disjointness -/

theorem jsLookup_append (a b : Header) (k : String) :
    jsLookup (a ++ b) k = (jsLookup b k).or (jsLookup a k) := by
  induction a with
  | nil => simp [jsLookup]
  | cons p rest ih =>
    obtain ⟨k', v⟩ := p
    show (jsLookup (rest ++ b) k).or _ = _
    rw [ih, Option.or_assoc]
    rfl

theorem jsLookup_eq_none (h : Header) (k : String) (hk : k ∉ h.map Prod.fst) :
    jsLookup h k = none := by
  induction h with
  | nil => rfl
  | cons p rest ih =>
    obtain ⟨k', v⟩ := p
    simp only [List.map_cons, List.mem_cons, not_or] at hk
    show (jsLookup rest k).or _ = none
    rw [ih hk.2, if_neg (fun hh => hk.1 (Eq.symm hh))]
    rfl

theorem mem_keys_of_jsLookup (h : Header) (k : String) (v : JValue)
    (hl : jsLookup h k = some v) : k ∈ h.map Prod.fst := by
  by_contra hk
  rw [jsLookup_eq_none h k hk] at hl
  exact Option.noConfusion hl

theorem mem_slotKeys_iff (h : Option Header) (k : String) :
    k ∈ slotKeys h ↔ k ∈ (h.getD []).map Prod.fst := by
  unfold slotKeys
  exact List.mem_dedup

theorem isDisjoint_false_of_pair (a b c : Option Header) (k : String)
    (hk : (k ∈ slotKeys a ∧ k ∈ slotKeys b) ∨ (k ∈ slotKeys a ∧ k ∈ slotKeys c)
      ∨ (k ∈ slotKeys b ∧ k ∈ slotKeys c)) :
    isDisjoint a b c = false := by
  unfold isDisjoint
  rw [decide_eq_false_iff_not]
  intro hnd
  rw [List.append_assoc] at hnd
  obtain ⟨hna, hnbc, hdis⟩ := List.nodup_append.mp hnd
  obtain ⟨hnb, hnc, hdisbc⟩ := List.nodup_append.mp hnbc
  rcases hk with ⟨h1, h2⟩ | ⟨h1, h2⟩ | ⟨h1, h2⟩
  · exact hdis h1 (List.mem_append_left _ h2)
  · exact hdis h1 (List.mem_append_right _ h2)
  · exact hdisbc h1 h2

theorem isDisjoint_true_lookup_none (a b c : Option Header) (k : String)
    (hd : isDisjoint a b c = true) (hk : k ∈ slotKeys a) :
    jsLookup (b.getD []) k = none ∧ jsLookup (c.getD []) k = none := by
  constructor
  · apply jsLookup_eq_none
    intro hmem
    have : isDisjoint a b c = false :=
      isDisjoint_false_of_pair a b c k (Or.inl ⟨hk, (mem_slotKeys_iff b k).mpr hmem⟩)
    rw [hd] at this
    exact Bool.noConfusion this
  · apply jsLookup_eq_none
    intro hmem
    have : isDisjoint a b c = false :=
      isDisjoint_false_of_pair a b c k (Or.inr (Or.inl ⟨hk, (mem_slotKeys_iff c k).mpr hmem⟩))
    rw [hd] at this
    exact Bool.noConfusion this

theorem jsMerge3_lookup_first (a : Header) (b c : Option Header) (k : String) (v : JValue)
    (hd : isDisjoint (some a) b c = true) (ha : jsLookup a k = some v) :
    jsLookup (jsMerge3 (some a) b c) k = some v := by
  have hk : k ∈ slotKeys (some a) :=
    (mem_slotKeys_iff (some a) k).mpr (mem_keys_of_jsLookup a k v ha)
  obtain ⟨hb, hc⟩ := isDisjoint_true_lookup_none (some a) b c k hd hk
  unfold jsMerge3
  rw [jsLookup_append, hc, jsLookup_append, hb]
  simp [ha]

/-! ## C8: IV length check -/

/-- C8: the claim says every caller-supplied IV whose length in bits
differs from the mandated bit length for `enc` is rejected.  The code
computes the bit length with the JavaScript 32-bit signed shift
`iv.length << 3`, which wraps: an IV of `2^29 + 12` bytes (bit length
`2^32 + 96`, not `96`) passes `checkIvLength` for `A128GCM`. -/
theorem spec_c8_shift_overflow_accepts_wrong_iv :
    checkIvLength "A128GCM" (List.replicate 536870924 0) = .ok () ∧
    536870924 * 8 ≠ 96 := by
  constructor
  · unfold checkIvLength
    norm_num [show bitLength "A128GCM" = some 96 from rfl, List.length_replicate,
      jsShl3, toInt32]
  · decide

/-! ## C10: unencoded-payload JWTs are rejected -/

/-- C10: if the verified protected header's `crit` contains `"b64"` and the
`b64` parameter is the boolean `false`, `jwtVerify` fails with `JWTInvalid`
even though the underlying JWS verification (the `verified` input)
succeeded, for every claims-set validator. -/
theorem spec_c10_unencoded_payload_rejected (payload : Bytes) (h : Header) (k : Key)
    (claimsSet : Header → Bytes → Except JoseError Header)
    (hc : critIncludes h "b64" = true) (hb : b64IsFalse h = true) :
    jwtVerify { payload := payload, protectedHeader := h, key := k } claimsSet
      = .error (.jwtInvalid msgUnencoded) := by
  unfold jwtVerify
  simp [hc, hb]

def c10Header : Header := [("crit", .arr [.str "b64"]), ("b64", .bool false)]

theorem spec_c10_witness :
    jwtVerify { payload := [], protectedHeader := c10Header, key := 0 } (fun _ _ => .ok [])
      = .error (.jwtInvalid msgUnencoded) :=
  spec_c10_unencoded_payload_rejected [] c10Header 0 (fun _ _ => .ok []) (by rfl) (by rfl)

/-! ## C3: set-once behaviour of the builder setters -/

/-- C3 (amended): every header/parameter slot setter except
`setAdditionalAuthenticatedData` is set-once: a second call on an instance
whose slot is already set fails with a `TypeError` (leaving the stored
value unchanged, since the failing call returns no updated instance),
while a call on an unset slot stores the value.  The AAD setter has no
guard: it always succeeds and overwrites. -/
theorem spec_c3_amended :
    (∀ (fe : FlattenedEncrypt) (x : Option Header),
      fe.protectedHeader.isSome = true →
        fe.setProtectedHeader x
          = .error (.typeError "setProtectedHeader can only be called once")) ∧
    (∀ (fe : FlattenedEncrypt) (x : Option Header),
      fe.protectedHeader = none →
        fe.setProtectedHeader x = .ok { fe with protectedHeader := x }) ∧
    (∀ (fe : FlattenedEncrypt) (x : Option Header),
      fe.sharedUnprotectedHeader.isSome = true →
        fe.setSharedUnprotectedHeader x
          = .error (.typeError "setSharedUnprotectedHeader can only be called once")) ∧
    (∀ (fe : FlattenedEncrypt) (x : Option Header),
      fe.sharedUnprotectedHeader = none →
        fe.setSharedUnprotectedHeader x = .ok { fe with sharedUnprotectedHeader := x }) ∧
    (∀ (fe : FlattenedEncrypt) (x : Option Header),
      fe.unprotectedHeader.isSome = true →
        fe.setUnprotectedHeader x
          = .error (.typeError "setUnprotectedHeader can only be called once")) ∧
    (∀ (fe : FlattenedEncrypt) (x : Option Header),
      fe.unprotectedHeader = none →
        fe.setUnprotectedHeader x = .ok { fe with unprotectedHeader := x }) ∧
    (∀ (fe : FlattenedEncrypt) (x : Option Bytes),
      fe.cek.isSome = true →
        fe.setContentEncryptionKey x
          = .error (.typeError "setContentEncryptionKey can only be called once")) ∧
    (∀ (fe : FlattenedEncrypt) (x : Option Bytes),
      fe.cek = none → fe.setContentEncryptionKey x = .ok { fe with cek := x }) ∧
    (∀ (fe : FlattenedEncrypt) (x : Option Bytes),
      fe.iv.isSome = true →
        fe.setInitializationVector x
          = .error (.typeError "setInitializationVector can only be called once")) ∧
    (∀ (fe : FlattenedEncrypt) (x : Option Bytes),
      fe.iv = none → fe.setInitializationVector x = .ok { fe with iv := x }) ∧
    (∀ (fe : FlattenedEncrypt) (x : Option KMParams),
      fe.keyManagementParameters.isSome = true →
        fe.setKeyManagementParameters x
          = .error (.typeError "setKeyManagementParameters can only be called once")) ∧
    (∀ (fe : FlattenedEncrypt) (x : Option KMParams),
      fe.keyManagementParameters = none →
        fe.setKeyManagementParameters x = .ok { fe with keyManagementParameters := x }) ∧
    (∀ (fe : FlattenedEncrypt) (x : Option Bytes),
      fe.setAdditionalAuthenticatedData x = .ok { fe with aad := x }) ∧
    (∀ (ge : GeneralEncrypt) (x : Option Header),
      ge.protectedHeader.isSome = true →
        ge.setProtectedHeader x
          = .error (.typeError "setProtectedHeader can only be called once")) ∧
    (∀ (ge : GeneralEncrypt) (x : Option Header),
      ge.protectedHeader = none →
        ge.setProtectedHeader x = .ok { ge with protectedHeader := x }) ∧
    (∀ (ge : GeneralEncrypt) (x : Option Header),
      ge.unprotectedHeader.isSome = true →
        ge.setSharedUnprotectedHeader x
          = .error (.typeError "setSharedUnprotectedHeader can only be called once")) ∧
    (∀ (ge : GeneralEncrypt) (x : Option Header),
      ge.unprotectedHeader = none →
        ge.setSharedUnprotectedHeader x = .ok { ge with unprotectedHeader := x }) ∧
    (∀ (ge : GeneralEncrypt) (x : Option Bytes),
      ge.setAdditionalAuthenticatedData x = .ok { ge with aad := x }) ∧
    (∀ (r : IndividualRecipient) (x : Option Header),
      r.unprotectedHeader.isSome = true →
        r.setUnprotectedHeader x
          = .error (.typeError "setUnprotectedHeader can only be called once")) ∧
    (∀ (r : IndividualRecipient) (x : Option Header),
      r.unprotectedHeader = none →
        r.setUnprotectedHeader x = .ok { r with unprotectedHeader := x }) := by
  refine ⟨?_, ?_, ?_, ?_, ?_, ?_, ?_, ?_, ?_, ?_, ?_, ?_, ?_, ?_, ?_, ?_, ?_, ?_, ?_, ?_⟩ <;>
    intros <;>
    simp_all [FlattenedEncrypt.setProtectedHeader, FlattenedEncrypt.setSharedUnprotectedHeader,
      FlattenedEncrypt.setUnprotectedHeader, FlattenedEncrypt.setContentEncryptionKey,
      FlattenedEncrypt.setInitializationVector, FlattenedEncrypt.setKeyManagementParameters,
      FlattenedEncrypt.setAdditionalAuthenticatedData, GeneralEncrypt.setProtectedHeader,
      GeneralEncrypt.setSharedUnprotectedHeader, GeneralEncrypt.setAdditionalAuthenticatedData,
      IndividualRecipient.setUnprotectedHeader]

def c3fe : FlattenedEncrypt := { plaintext := [0] }

/-- C3 counterexample: a second call to `setAdditionalAuthenticatedData`
on the same instance does not throw — it succeeds and silently replaces
the first value, contradicting the claim for the AAD slot. -/
theorem spec_c3_counterexample :
    ((c3fe.setAdditionalAuthenticatedData (some [1])).bind
        fun s => s.setAdditionalAuthenticatedData (some [2]))
      = .ok { c3fe with aad := some [2] } := by rfl

def c3feSet : FlattenedEncrypt := {
  plaintext := [0]
  protectedHeader := some [("alg", .str "dir")] }

theorem spec_c3_witness :
    c3feSet.setProtectedHeader (some [])
        = .error (.typeError "setProtectedHeader can only be called once") ∧
    c3feSet.setAdditionalAuthenticatedData (some [2]) = .ok { c3feSet with aad := some [2] } :=
  ⟨spec_c3_amended.1 c3feSet (some []) (by rfl),
    spec_c3_amended.2.2.2.2.2.2.2.2.2.2.2.2.1 c3feSet (some [2])⟩

/-! ## Machinery for the general-encryption validation loop -/

/-- Whether an `Except` result is an error. -/
def Except.isErr : Except ε α → Bool
  | .error _ => true
  | .ok _ => false

/-- A recipient whose merged header cannot pass the validation loop:
disjointness violated, `alg` missing/not a nonempty string, `alg` equal to
`dir` or `ECDH-ES`, or `enc` missing/not a nonempty string. -/
def recipientFails (p u : Option Header) (r : IndividualRecipient) : Prop :=
  isDisjoint p u r.unprotectedHeader = false ∨
  mergedAlgOpt p u r = none ∨
  mergedAlgOpt p u r = some "dir" ∨
  mergedAlgOpt p u r = some "ECDH-ES" ∨
  mergedEncOpt p u r = none

theorem generalValidate_isErr (p u : Option Header) (rs : List IndividualRecipient)
    (hbad : ∃ r ∈ rs, recipientFails p u r) :
    ∀ acc, (generalValidate p u rs acc).isErr = true := by
  induction rs with
  | nil =>
    obtain ⟨r, hr, _⟩ := hbad
    exact absurd hr (List.not_mem_nil r)
  | cons r rs ih =>
    intro acc
    obtain ⟨r', hr', hf⟩ := hbad
    rcases List.mem_cons.mp hr' with heq | htail
    · subst heq
      simp only [generalValidate]
      split
      · rfl
      · rename_i hdj
        split
        · rename_i alg heqn halg
          split
          · rfl
          · split
            · rfl
            · rename_i halgne hdir
              split
              · rename_i enc heqn2 henc
                split
                · rfl
                · rename_i hencne
                  exfalso
                  rcases hf with hf | hf | hf | hf | hf
                  · simp [hf] at hdj
                  · unfold mergedAlgOpt at hf
                    rw [halg] at hf
                    simp [halgne] at hf
                  · unfold mergedAlgOpt at hf
                    rw [halg] at hf
                    simp [halgne] at hf
                    exact hdir (Or.inl hf)
                  · unfold mergedAlgOpt at hf
                    rw [halg] at hf
                    simp [halgne] at hf
                    exact hdir (Or.inr hf)
                  · unfold mergedEncOpt at hf
                    rw [henc] at hf
                    simp [hencne] at hf
              · rfl
        · rfl
    · simp only [generalValidate]
      repeat' first
        | rfl
        | exact ih ⟨r', htail, hf⟩ _
        | split

theorem generalValidate_jweInvalid (p u : Option Header) (rs : List IndividualRecipient)
    (hz : ∀ r ∈ rs, (jsLookup (jsMerge3 p u r.unprotectedHeader) "zip").isNone = true) :
    ∀ acc e, generalValidate p u rs acc = .error e → ∃ m, e = .jweInvalid m := by
  induction rs with
  | nil =>
    intro acc e h
    unfold generalValidate at h
    exact Except.noConfusion h
  | cons r rs ih =>
    intro acc e h
    have hzr := hz r (List.mem_cons_self r rs)
    simp only [generalValidate] at h
    repeat' first
      | exact ih (fun r' hr' => hz r' (List.mem_cons_of_mem r hr')) _ _ h
      | exact ⟨_, (Except.error.inj h).symm⟩
      | solve
        | exfalso
          simp_all [Option.isNone_iff_eq_none]
      | split at h

theorem generalValidate_isErr_of_mismatch (p u : Option Header)
    (rs : List IndividualRecipient) (e0 : String)
    (hbad : ∃ r ∈ rs, mergedEncOpt p u r ≠ some e0) :
    (generalValidate p u rs (some e0)).isErr = true := by
  induction rs with
  | nil =>
    obtain ⟨r, hr, _⟩ := hbad
    exact absurd hr (List.not_mem_nil r)
  | cons r rs ih =>
    obtain ⟨r', hr', hf⟩ := hbad
    rcases List.mem_cons.mp hr' with heq | htail
    · subst heq
      simp only [generalValidate]
      split
      · rfl
      · split
        · rename_i alg s halg
          split
          · rfl
          · split
            · rfl
            · split
              · rename_i enc2 s2 henc
                split
                · rfl
                · rename_i hencne
                  split
                  · rfl
                  · rename_i hne
                    exfalso
                    have he : e0 = s2 := not_not.mp hne
                    apply hf
                    unfold mergedEncOpt
                    rw [henc]
                    simp [hencne, he]
              · rfl
        · rfl
    · simp only [generalValidate]
      repeat' first
        | rfl
        | exact ih ⟨r', htail, hf⟩
        | split

theorem flattened_disjoint_error (st : FlattenedEncrypt) (key : Key)
    (critOption : Option (List String)) (o : Oracles)
    (hne : (st.protectedHeader.isNone && st.unprotectedHeader.isNone
      && st.sharedUnprotectedHeader.isNone) = false)
    (hd : isDisjoint st.protectedHeader st.unprotectedHeader st.sharedUnprotectedHeader
      = false) :
    st.encrypt key critOption o = (.error (.jweInvalid msgDisjoint), []) := by
  unfold FlattenedEncrypt.encrypt
  rw [hne, hd]
  simp

theorem isNone_false_of_mem_slotKeys (h : Option Header) (k : String) (hk : k ∈ slotKeys h) :
    h.isNone = false := by
  cases h with
  | none => simp [slotKeys] at hk
  | some _ => rfl

theorem general_single_disjoint_error (pt : Bytes) (r1 : IndividualRecipient)
    (ph uh : Option Header) (aad : Option Bytes) (o : Oracles) (k : String)
    (hk : sharedAcrossSlots k ph uh r1.unprotectedHeader) :
    GeneralEncrypt.encrypt ⟨pt, [r1], ph, uh, aad⟩ o
      = (.error (.jweInvalid msgDisjoint), []) := by
  have hne : (ph.isNone && r1.unprotectedHeader.isNone && uh.isNone) = false := by
    rcases hk with ⟨h1, h2⟩ | ⟨h1, h2⟩ | ⟨h1, h2⟩ <;>
      simp [isNone_false_of_mem_slotKeys _ _ h1, isNone_false_of_mem_slotKeys _ _ h2]
  have hd : isDisjoint ph r1.unprotectedHeader uh = false := by
    apply isDisjoint_false_of_pair _ _ _ k
    rcases hk with ⟨h1, h2⟩ | ⟨h1, h2⟩ | ⟨h1, h2⟩
    · exact Or.inr (Or.inl ⟨h1, h2⟩)
    · exact Or.inl ⟨h1, h2⟩
    · exact Or.inr (Or.inr ⟨h2, h1⟩)
  have hflat := flattened_disjoint_error ⟨pt, ph, uh, r1.unprotectedHeader, aad, none, none, none⟩
    r1.key r1.crit o hne hd
  simp only [GeneralEncrypt.encrypt, FlattenedEncrypt.setAdditionalAuthenticatedData,
    FlattenedEncrypt.setProtectedHeader, FlattenedEncrypt.setSharedUnprotectedHeader,
    FlattenedEncrypt.setUnprotectedHeader, Except.bind]
  simp only [Option.isSome_none, Bool.false_eq_true, if_false]
  simp [hflat]

theorem general_multi_validate_error (pt : Bytes) (r0 r1 : IndividualRecipient)
    (rs : List IndividualRecipient) (ph uh : Option Header) (aad : Option Bytes)
    (o : Oracles) (e : JoseError)
    (hv : generalValidate ph uh (r0 :: r1 :: rs) none = .error e) :
    GeneralEncrypt.encrypt ⟨pt, r0 :: r1 :: rs, ph, uh, aad⟩ o = (.error e, []) := by
  simp only [GeneralEncrypt.encrypt]
  rw [hv]

/-! ## C2: duplicate header parameter names across slots -/

/-- C2 (amended): a duplicate header parameter name across the three slots
makes encryption fail before any key-management or content-encryption
primitive is invoked (the recorded trace is empty).  For flattened
encryption the failure is exactly the `JWEInvalid` disjointness error; for
general encryption the failure is `JWEInvalid` provided no recipient's
merged header carries a `zip` parameter — a `zip` seen on an earlier
recipient fails first with `JOSENotSupported` instead. -/
theorem spec_c2_amended :
    (∀ (st : FlattenedEncrypt) (key : Key) (critOption : Option (List String)) (o : Oracles)
        (k : String),
      sharedAcrossSlots k st.protectedHeader st.unprotectedHeader st.sharedUnprotectedHeader →
      st.encrypt key critOption o = (.error (.jweInvalid msgDisjoint), [])) ∧
    (∀ (st : GeneralEncrypt) (o : Oracles) (r : IndividualRecipient) (k : String),
      r ∈ st.recipients →
      sharedAcrossSlots k st.protectedHeader st.unprotectedHeader r.unprotectedHeader →
      ((st.encrypt o).1.isErr = true ∧ (st.encrypt o).2 = [] ∧
        ((∀ r' ∈ st.recipients,
            (jsLookup (jsMerge3 st.protectedHeader st.unprotectedHeader r'.unprotectedHeader)
              "zip").isNone = true) →
          ∃ m, (st.encrypt o).1 = .error (.jweInvalid m)))) := by
  constructor
  · intro st key critOption o k hk
    apply flattened_disjoint_error
    · rcases hk with ⟨h1, h2⟩ | ⟨h1, h2⟩ | ⟨h1, h2⟩ <;>
        simp [isNone_false_of_mem_slotKeys _ _ h1, isNone_false_of_mem_slotKeys _ _ h2]
    · exact isDisjoint_false_of_pair _ _ _ k hk
  · intro st o r k hr hk
    obtain ⟨pt, recips, ph, uh, aad⟩ := st
    dsimp only at hr hk ⊢
    match recips, hr with
    | [r1], hr =>
      have hr1 : r = r1 := by simpa using hr
      subst hr1
      have hkey := general_single_disjoint_error pt r ph uh aad o k hk
      refine ⟨by rw [hkey]; rfl, by rw [hkey], fun _ => ⟨msgDisjoint, by rw [hkey]⟩⟩
    | r0 :: r1 :: rs, hr =>
      have hd : isDisjoint ph uh r.unprotectedHeader = false :=
        isDisjoint_false_of_pair _ _ _ k hk
      have hval : (generalValidate ph uh (r0 :: r1 :: rs) none).isErr = true :=
        generalValidate_isErr ph uh _ ⟨r, hr, Or.inl hd⟩ none
      cases hv : generalValidate ph uh (r0 :: r1 :: rs) none with
      | ok v =>
        rw [hv] at hval
        exact Bool.noConfusion hval
      | error e =>
        have hkey := general_multi_validate_error pt r0 r1 rs ph uh aad o e hv
        refine ⟨by rw [hkey]; rfl, by rw [hkey], fun hz => ?_⟩
        obtain ⟨m, hm⟩ := generalValidate_jweInvalid ph uh (r0 :: r1 :: rs) hz none e hv
        exact ⟨m, by rw [hkey, hm]⟩

/-- Whether a general-encryption result failed with `JWEInvalid`. -/
def isJWEInvalidErr : Except JoseError GeneralJWE → Bool
  | .error (.jweInvalid _) => true
  | _ => false

def c2cxr0 : IndividualRecipient := {
  key := 0
  unprotectedHeader := some [("enc", .str "A128GCM"), ("zip", .str "DEF")] }

def c2cxr1 : IndividualRecipient := {
  key := 1
  unprotectedHeader := some [("alg", .str "A128KW"), ("enc", .str "A128GCM")] }

def c2cx : GeneralEncrypt := {
  plaintext := [1]
  recipients := [c2cxr0, c2cxr1]
  protectedHeader := some [("alg", .str "A128KW")] }

/-- C2 counterexample: recipient 1 duplicates `alg` across the protected
and per-recipient slots, yet the general encryption fails with
`JOSENotSupported` (recipient 0 carries `zip`, which is checked first),
not with the `JWEInvalid` the claim requires. -/
theorem spec_c2_counterexample :
    (c2cx.encrypt oraclesX).1 = .error (.joseNotSupported msgZipGeneral) ∧
    isJWEInvalidErr (c2cx.encrypt oraclesX).1 = false := by
  exact ⟨rfl, rfl⟩

def c2w : FlattenedEncrypt := {
  plaintext := [1]
  protectedHeader := some [("alg", .str "dir"), ("enc", .str "A128GCM")]
  unprotectedHeader := some [("alg", .str "dir")] }

theorem spec_c2_witness :
    c2w.encrypt 0 none oraclesX = (.error (.jweInvalid msgDisjoint), []) :=
  spec_c2_amended.1 c2w 0 none oraclesX "alg" (Or.inl (by decide))

/-! ## C4: `dir`/`ECDH-ES` with more than one recipient -/

/-- C4 (amended): in a general encryption with more than one recipient,
any recipient whose merged header has `alg` equal to `dir` or `ECDH-ES`
makes `encrypt` fail before any primitive is invoked (empty trace); the
error is `JWEInvalid` provided no recipient's merged header carries `zip`
(a `zip` on an earlier recipient fails first with `JOSENotSupported`). -/
theorem spec_c4_amended (st : GeneralEncrypt) (o : Oracles) (r0 r1 : IndividualRecipient)
    (rs : List IndividualRecipient) (hrec : st.recipients = r0 :: r1 :: rs)
    (hbad : ∃ r ∈ st.recipients,
      mergedAlgOpt st.protectedHeader st.unprotectedHeader r = some "dir" ∨
      mergedAlgOpt st.protectedHeader st.unprotectedHeader r = some "ECDH-ES") :
    (st.encrypt o).1.isErr = true ∧ (st.encrypt o).2 = [] ∧
    ((∀ r' ∈ st.recipients,
        (jsLookup (jsMerge3 st.protectedHeader st.unprotectedHeader r'.unprotectedHeader)
          "zip").isNone = true) →
      ∃ m, (st.encrypt o).1 = .error (.jweInvalid m)) := by
  obtain ⟨pt, recips, ph, uh, aad⟩ := st
  dsimp only at hrec hbad ⊢
  subst hrec
  have hval : (generalValidate ph uh (r0 :: r1 :: rs) none).isErr = true := by
    apply generalValidate_isErr
    obtain ⟨r, hr, hor⟩ := hbad
    exact ⟨r, hr, hor.elim (fun h => Or.inr (Or.inr (Or.inl h)))
      (fun h => Or.inr (Or.inr (Or.inr (Or.inl h))))⟩
  cases hv : generalValidate ph uh (r0 :: r1 :: rs) none with
  | ok v =>
    rw [hv] at hval
    exact Bool.noConfusion hval
  | error e =>
    have hkey := general_multi_validate_error pt r0 r1 rs ph uh aad o e hv
    refine ⟨by rw [hkey]; rfl, by rw [hkey], fun hz => ?_⟩
    obtain ⟨m, hm⟩ := generalValidate_jweInvalid ph uh (r0 :: r1 :: rs) hz none e hv
    exact ⟨m, by rw [hkey, hm]⟩

def c4cxr0 : IndividualRecipient := {
  key := 0
  unprotectedHeader := some [("alg", .str "A128KW"), ("enc", .str "A128GCM"),
    ("zip", .str "DEF")] }

def c4cxr1 : IndividualRecipient := {
  key := 1
  unprotectedHeader := some [("alg", .str "dir"), ("enc", .str "A128GCM")] }

def c4cx : GeneralEncrypt := {
  plaintext := [1]
  recipients := [c4cxr0, c4cxr1] }

/-- C4 counterexample: recipient 1's merged header has `alg = dir` and
there are two recipients, yet the encryption fails with `JOSENotSupported`
(recipient 0 carries `zip`), not with the `JWEInvalid` the claim states. -/
theorem spec_c4_counterexample :
    (c4cx.encrypt oraclesX).1 = .error (.joseNotSupported msgZipGeneral) ∧
    isJWEInvalidErr (c4cx.encrypt oraclesX).1 = false := by
  exact ⟨rfl, rfl⟩

def c4wr0 : IndividualRecipient := {
  key := 0
  unprotectedHeader := some [("alg", .str "dir"), ("enc", .str "A128GCM")] }

def c4wr1 : IndividualRecipient := {
  key := 1
  unprotectedHeader := some [("alg", .str "dir"), ("enc", .str "A128GCM")] }

def c4w : GeneralEncrypt := {
  plaintext := [1]
  recipients := [c4wr0, c4wr1] }

theorem spec_c4_witness :
    (c4w.encrypt oraclesX).1.isErr = true ∧ (c4w.encrypt oraclesX).2 = [] ∧
    ∃ m, (c4w.encrypt oraclesX).1 = .error (.jweInvalid m) := by
  have h := spec_c4_amended c4w oraclesX c4wr0 c4wr1 [] rfl
    ⟨c4wr0, List.mem_cons_self _ _, Or.inl (by rfl)⟩
  exact ⟨h.1, h.2.1, h.2.2 (by decide)⟩

/-! ## C9: a single `enc` shared by all recipients -/

/-- C9 (amended): in a general encryption with more than one recipient, if
any recipient's merged header lacks a nonempty-string `enc`, or carries an
`enc` different from recipient 0's, `encrypt` fails before any cek is
generated (the trace is empty, so no `generateCek` call is recorded); the
error is `JWEInvalid` provided no recipient's merged header carries `zip`
(a `zip` on an earlier recipient fails first with `JOSENotSupported`). -/
theorem spec_c9_amended (st : GeneralEncrypt) (o : Oracles) (r0 r1 : IndividualRecipient)
    (rs : List IndividualRecipient) (hrec : st.recipients = r0 :: r1 :: rs)
    (hbad : (∃ r ∈ st.recipients,
        mergedEncOpt st.protectedHeader st.unprotectedHeader r = none) ∨
      (∃ r ∈ st.recipients,
        mergedEncOpt st.protectedHeader st.unprotectedHeader r
          ≠ mergedEncOpt st.protectedHeader st.unprotectedHeader r0)) :
    (st.encrypt o).1.isErr = true ∧ (st.encrypt o).2 = [] ∧
    ((∀ r' ∈ st.recipients,
        (jsLookup (jsMerge3 st.protectedHeader st.unprotectedHeader r'.unprotectedHeader)
          "zip").isNone = true) →
      ∃ m, (st.encrypt o).1 = .error (.jweInvalid m)) := by
  obtain ⟨pt, recips, ph, uh, aad⟩ := st
  dsimp only at hrec hbad ⊢
  subst hrec
  have hval : (generalValidate ph uh (r0 :: r1 :: rs) none).isErr = true := by
    rcases hbad with ⟨r, hr, hnone⟩ | ⟨r, hr, hne⟩
    · exact generalValidate_isErr ph uh _
        ⟨r, hr, Or.inr (Or.inr (Or.inr (Or.inr hnone)))⟩ none
    · by_cases he0 : mergedEncOpt ph uh r0 = none
      · exact generalValidate_isErr ph uh _
          ⟨r0, List.mem_cons_self _ _, Or.inr (Or.inr (Or.inr (Or.inr he0)))⟩ none
      · obtain ⟨e0, he0'⟩ := Option.ne_none_iff_exists'.mp he0
        have hrtail : r ∈ r1 :: rs := by
          rcases List.mem_cons.mp hr with heq | h
          · exact absurd (by rw [heq]) hne
          · exact h
        have hmis : ∃ r' ∈ r1 :: rs, mergedEncOpt ph uh r' ≠ some e0 := by
          refine ⟨r, hrtail, ?_⟩
          rw [← he0']
          exact hne
        rw [generalValidate.eq_2]
        dsimp only
        split
        · rfl
        · split
          · rename_i alg s halg
            split
            · rfl
            · split
              · rfl
              · split
                · rename_i enc2 s2 henc
                  split
                  · rfl
                  · rename_i hencne
                    split
                    · rfl
                    · split
                      · rfl
                      · have hs2 : s2 = e0 := by
                          unfold mergedEncOpt at he0'
                          rw [henc] at he0'
                          simp [hencne] at he0'
                          exact he0'
                        rw [hs2]
                        exact generalValidate_isErr_of_mismatch ph uh (r1 :: rs) e0 hmis
                · rfl
          · rfl
  cases hv : generalValidate ph uh (r0 :: r1 :: rs) none with
  | ok v =>
    rw [hv] at hval
    exact Bool.noConfusion hval
  | error e =>
    have hkey := general_multi_validate_error pt r0 r1 rs ph uh aad o e hv
    refine ⟨by rw [hkey]; rfl, by rw [hkey], fun hz => ?_⟩
    obtain ⟨m, hm⟩ := generalValidate_jweInvalid ph uh (r0 :: r1 :: rs) hz none e hv
    exact ⟨m, by rw [hkey, hm]⟩

def c9cxr0 : IndividualRecipient := {
  key := 0
  unprotectedHeader := some [("alg", .str "A128KW"), ("enc", .str "A128GCM"),
    ("zip", .str "DEF")] }

def c9cxr1 : IndividualRecipient := {
  key := 1
  unprotectedHeader := some [("alg", .str "A128KW"), ("enc", .str "A256GCM")] }

def c9cx : GeneralEncrypt := {
  plaintext := [1]
  recipients := [c9cxr0, c9cxr1] }

/-- C9 counterexample: recipient 1's merged `enc` (A256GCM) differs from
recipient 0's (A128GCM), yet the encryption fails with `JOSENotSupported`
(recipient 0 carries `zip`), not with the `JWEInvalid` the claim states. -/
theorem spec_c9_counterexample :
    (c9cx.encrypt oraclesX).1 = .error (.joseNotSupported msgZipGeneral) ∧
    isJWEInvalidErr (c9cx.encrypt oraclesX).1 = false := by
  exact ⟨rfl, rfl⟩

def c9wr0 : IndividualRecipient := {
  key := 0
  unprotectedHeader := some [("alg", .str "A128KW"), ("enc", .str "A128GCM")] }

def c9wr1 : IndividualRecipient := {
  key := 1
  unprotectedHeader := some [("alg", .str "A128KW"), ("enc", .str "A256GCM")] }

def c9w : GeneralEncrypt := {
  plaintext := [1]
  recipients := [c9wr0, c9wr1] }

theorem spec_c9_witness :
    (c9w.encrypt oraclesX).1.isErr = true ∧ (c9w.encrypt oraclesX).2 = [] ∧
    ∃ m, (c9w.encrypt oraclesX).1 = .error (.jweInvalid m) := by
  have h := spec_c9_amended c9w oraclesX c9wr0 c9wr1 [] rfl
    (Or.inr ⟨c9wr1, List.mem_cons_of_mem _ (List.mem_cons_self _ _), by decide⟩)
  exact ⟨h.1, h.2.1, h.2.2 (by decide)⟩

/-! ## C5: caller-supplied cek forbidden for `dir` and `ECDH-ES` -/

theorem encryptBody_cek_guard (st : FlattenedEncrypt) (k0 : Key) (o : Oracles) (jh : Header)
    (hcek : st.cek.isSome = true)
    (halg : jsLookup jh "alg" = some (.str "dir") ∨ jsLookup jh "alg" = some (.str "ECDH-ES")) :
    (FlattenedEncrypt.encryptBody st k0 o jh).1.isErr = true ∧
    (FlattenedEncrypt.encryptBody st k0 o jh).2 = [] := by
  unfold FlattenedEncrypt.encryptBody
  rcases halg with h | h <;> rw [h] <;> simp [hcek] <;> try split
  all_goals first
    | rfl
    | exact ⟨rfl, rfl⟩
    | (split <;> exact ⟨rfl, rfl⟩)

/-- C5: when the caller has supplied an explicit content-encryption key
(`setContentEncryptionKey` was called) and the merged header's `alg` is
`dir` or `ECDH-ES`, `encrypt` fails before key management runs: the result
is an error and the invocation trace is empty, so neither the
key-management dispatcher nor any encryption primitive was reached. -/
theorem spec_c5_explicit_cek_rejected (st : FlattenedEncrypt) (k0 : Key)
    (critOption : Option (List String)) (o : Oracles)
    (hcek : st.cek.isSome = true)
    (halg : jsLookup (mergedHeaderOf st) "alg" = some (.str "dir") ∨
      jsLookup (mergedHeaderOf st) "alg" = some (.str "ECDH-ES")) :
    (st.encrypt k0 critOption o).1.isErr = true ∧ (st.encrypt k0 critOption o).2 = [] := by
  unfold FlattenedEncrypt.encrypt
  dsimp only
  repeat' first
    | exact ⟨rfl, rfl⟩
    | exact encryptBody_cek_guard st k0 o _ hcek halg
    | split

def c5w : FlattenedEncrypt := {
  plaintext := [1]
  protectedHeader := some [("alg", .str "dir"), ("enc", .str "A128GCM")]
  cek := some [9] }

theorem spec_c5_witness :
    (c5w.encrypt 0 none oraclesX).1.isErr = true ∧ (c5w.encrypt 0 none oraclesX).2 = [] :=
  spec_c5_explicit_cek_rejected c5w 0 none oraclesX (by rfl) (Or.inl (by rfl))

/-! ## C7: placement and value of the `zip` header parameter -/

theorem flattenedZipNotProtected_error (st : FlattenedEncrypt) (k0 : Key)
    (critOption : Option (List String)) (o : Oracles)
    (hz : (jsLookup (mergedHeaderOf st) "zip").isSome = true)
    (hfalsy : jsTruthy (protZip st) = false) :
    ∃ m, (st.encrypt k0 critOption o).1 = .error (.jweInvalid m) ∧
      (st.encrypt k0 critOption o).2 = [] := by
  unfold mergedHeaderOf at hz
  unfold protZip at hfalsy
  unfold FlattenedEncrypt.encrypt
  dsimp only
  split
  · exact ⟨msgNoHeader, rfl, rfl⟩
  · split
    · exact ⟨msgDisjoint, rfl, rfl⟩
    · split
      · exact ⟨msgCrit, rfl, rfl⟩
      · split
        · split
          · exact ⟨msgZipProtected, rfl, rfl⟩
          · exfalso
            simp_all
        · exfalso
          simp_all

theorem flattenedZipNotDEF_error (st : FlattenedEncrypt) (k0 : Key)
    (critOption : Option (List String)) (o : Oracles)
    (htruthy : jsTruthy (protZip st) = true)
    (hd : isDisjoint st.protectedHeader st.unprotectedHeader st.sharedUnprotectedHeader = true)
    (hcrit : validateCrit critOption st.protectedHeader (mergedHeaderOf st) = true)
    (hdef : zipIsDEF (mergedHeaderOf st) = false) :
    st.encrypt k0 critOption o = (.error (.joseNotSupported msgZipUnsupported), []) := by
  obtain ⟨pt, php, shu, unh, aad, cek, iv, kmp⟩ := st
  unfold mergedHeaderOf protZip at *
  dsimp only at *
  rcases php with _ | p
  · exact Bool.noConfusion htruthy
  · simp only [Option.some_bind] at htruthy
    rcases hpz : jsLookup p "zip" with _ | v
    · rw [hpz] at htruthy
      simp [jsTruthy] at htruthy
    · rw [hpz] at htruthy
      have hm : jsLookup (jsMerge3 (some p) unh shu) "zip" = some v :=
        jsMerge3_lookup_first p unh shu "zip" v hd hpz
      unfold FlattenedEncrypt.encrypt
      dsimp only
      split
      · rename_i hno
        simp at hno
      · split
        · rename_i hdj
          simp [hd] at hdj
        · split
          · rename_i hcr
            simp [hcrit] at hcr
          · split
            · rename_i z heq
              rw [hm] at heq
              have hzv : z = v := (Option.some.inj heq).symm
              subst hzv
              split
              · rename_i hfalsy
                simp [Option.some_bind, hpz, htruthy] at hfalsy
              · split
                · split
                  · exfalso
                    simp_all [zipIsDEF]
                  · rfl
                · rfl
            · rename_i heq
              rw [hm] at heq
              exact Option.noConfusion heq

/-- C7 (amended): when the merged header of a flattened encryption carries
`zip`, then (a) if the protected slot has no truthy `zip` value, `encrypt`
fails with a `JWEInvalid` error and an empty trace — this includes the case
of a falsy `zip` value (such as the empty string) carried in the protected
slot, which the original claim said would be `NotSupportedError`; and (b)
if the protected slot's `zip` is truthy and the other validation steps
pass, a `zip` value other than the exact string `"DEF"` fails with
`JOSENotSupported` and an empty trace. -/
theorem spec_c7_amended (st : FlattenedEncrypt) (k0 : Key)
    (critOption : Option (List String)) (o : Oracles)
    (hz : (jsLookup (mergedHeaderOf st) "zip").isSome = true) :
    (jsTruthy (protZip st) = false →
      ∃ m, (st.encrypt k0 critOption o).1 = .error (.jweInvalid m) ∧
        (st.encrypt k0 critOption o).2 = []) ∧
    (jsTruthy (protZip st) = true →
      isDisjoint st.protectedHeader st.unprotectedHeader st.sharedUnprotectedHeader = true →
      validateCrit critOption st.protectedHeader (mergedHeaderOf st) = true →
      zipIsDEF (mergedHeaderOf st) = false →
      st.encrypt k0 critOption o = (.error (.joseNotSupported msgZipUnsupported), [])) :=
  ⟨fun hfalsy => flattenedZipNotProtected_error st k0 critOption o hz hfalsy,
    fun ht hd hc hdef => flattenedZipNotDEF_error st k0 critOption o ht hd hc hdef⟩

def c7cx : FlattenedEncrypt := {
  plaintext := [1]
  protectedHeader := some [("alg", .str "dir"), ("enc", .str "A128GCM"), ("zip", .str "")] }

/-- C7 counterexample: `zip` is carried in the protected slot with the
(falsy) value `""`, which differs from `"DEF"`, yet `encrypt` fails with
`JWEInvalid` (the integrity-protection error), not with the
`NotSupportedError` the claim requires for a non-`"DEF"` value. -/
theorem spec_c7_counterexample :
    (c7cx.encrypt 0 none oraclesX).1 = .error (.jweInvalid msgZipProtected) ∧
    JoseError.jweInvalid msgZipProtected ≠ .joseNotSupported msgZipUnsupported :=
  ⟨rfl, by decide⟩

def c7w : FlattenedEncrypt := {
  plaintext := [1]
  protectedHeader := some [("alg", .str "dir"), ("enc", .str "A128GCM"), ("zip", .str "GZIP")] }

theorem spec_c7_witness :
    c7w.encrypt 0 none oraclesX = (.error (.joseNotSupported msgZipUnsupported), []) :=
  (spec_c7_amended c7w 0 none oraclesX (by rfl)).2 (by rfl) (by rfl) (by rfl) (by rfl)

/-! ## C6: construction of the Additional Authenticated Data -/

theorem encryptBody_ok_cases (st : FlattenedEncrypt) (k0 : Key) (o : Oracles) (jh : Header)
    (jwe : FlattenedJWE) (tr : List PrimCall)
    (h : FlattenedEncrypt.encryptBody st k0 o jh = (.ok jwe, tr)) :
    ∃ alg enc, FlattenedEncrypt.sealStep st k0 o jh alg enc = (.ok jwe, tr) := by
  unfold FlattenedEncrypt.encryptBody at h
  repeat' first
    | exact ⟨_, _, h⟩
    | (solve | simp_all)
    | split at h

theorem flattenedEncrypt_ok_body (st : FlattenedEncrypt) (k0 : Key)
    (critOption : Option (List String)) (o : Oracles) (jwe : FlattenedJWE) (tr : List PrimCall)
    (h : st.encrypt k0 critOption o = (.ok jwe, tr)) :
    FlattenedEncrypt.encryptBody st k0 o (mergedHeaderOf st) = (.ok jwe, tr) := by
  unfold FlattenedEncrypt.encrypt at h
  dsimp only at h
  repeat' first
    | exact h
    | (solve | simp_all)
    | split at h

/-- C6 (amended): every successful flattened encryption hands content
encryption the AAD `aadBytes ph aad`: the ASCII bytes of
`base64url(protected header JSON)` (empty when there is no protected
header), extended with `"."` and the ASCII bytes of `base64url(callerAad)`
when caller AAD is present.  The output's `protected` field is the
base64url segment of that same protected header, and the output's `aad`
field is `base64url(callerAad)` — except that an empty caller AAD (whose
base64url is the falsy `""`) leaves the `aad` field absent. -/
theorem spec_c6_amended (st : FlattenedEncrypt) (k0 : Key) (critOption : Option (List String))
    (o : Oracles) (jwe : FlattenedJWE) (tr : List PrimCall)
    (h : st.encrypt k0 critOption o = (.ok jwe, tr)) :
    ∃ (ph : Option Header) (enc : String) (pt cek2 iv : Bytes),
      tr.getLast? = some (.encrypt enc pt cek2 iv (aadBytes ph st.aad)) ∧
      jwe.«protected» = ph.map protEncode ∧
      jwe.aad = (match st.aad.map base64urlEncode with
        | some m => if m = "" then none else some m
        | none => none) := by
  obtain ⟨alg, enc, hseal⟩ :=
    encryptBody_ok_cases st k0 o _ jwe tr (flattenedEncrypt_ok_body st k0 critOption o jwe tr h)
  unfold FlattenedEncrypt.sealStep at hseal
  dsimp only at hseal
  injection hseal with h1 h2
  injection h1 with h1
  refine ⟨mergeKmParameters st.protectedHeader
      (o.encryptKeyManagement alg enc k0 st.cek st.keyManagementParameters).parameters,
    enc,
    (if zipIsDEF (mergedHeaderOf st) then o.deflate st.plaintext else st.plaintext),
    (o.encryptKeyManagement alg enc k0 st.cek st.keyManagementParameters).cek,
    st.iv.getD (o.generateIv enc), ?_, ?_, ?_⟩
  · rw [← h2]
    exact List.getLast?_concat _
  · rw [← h1]
  · rw [← h1]

def c6cx : FlattenedEncrypt := {
  plaintext := [104]
  protectedHeader := some [("alg", .str "dir"), ("enc", .str "A128GCM")]
  aad := some [] }

/-- C6 counterexample: with an empty caller-supplied AAD the encryption
succeeds (and the AAD handed to content encryption does get the `"."`
extension), but the output's `aad` field is absent — not equal to
`base64url(callerAad) = ""` as the claim requires: `if (aadMember)` is
false for the empty string. -/
theorem spec_c6_counterexample :
    Except.map FlattenedJWE.aad (c6cx.encrypt 0 none oraclesX).1 = .ok none ∧
    base64urlEncode [] = "" :=
  ⟨rfl, rfl⟩

def c6w : FlattenedEncrypt := {
  plaintext := [104]
  protectedHeader := some [("alg", .str "dir"), ("enc", .str "A128GCM")]
  aad := some [3] }

def c6wJwe : FlattenedJWE :=
  match (c6w.encrypt 0 none oraclesX).1 with
  | .ok j => j
  | .error _ => { ciphertext := "", iv := "", tag := "" }

def c6wTr : List PrimCall := (c6w.encrypt 0 none oraclesX).2

theorem spec_c6_witness :
    ∃ (ph : Option Header) (enc : String) (pt cek2 iv : Bytes),
      c6wTr.getLast? = some (.encrypt enc pt cek2 iv (aadBytes ph c6w.aad)) ∧
      c6wJwe.«protected» = ph.map protEncode ∧
      c6wJwe.aad = (match c6w.aad.map base64urlEncode with
        | some m => if m = "" then none else some m
        | none => none) :=
  spec_c6_amended c6w 0 none oraclesX c6wJwe c6wTr (by rfl)

/-! ## C1: one shared content-encryption key across all recipients -/

/-- The trace of one flattened seal step contains no cek generation, exactly
one content-encryption call, and exactly one key-management call, the latter
carrying the builder's cek argument. -/
theorem sealStep_trace (st : FlattenedEncrypt) (k0 : Key) (o : Oracles) (jh : Header)
    (alg enc : String) :
    ((FlattenedEncrypt.sealStep st k0 o jh alg enc).2.filter PrimCall.isGenCek) = [] ∧
    ((FlattenedEncrypt.sealStep st k0 o jh alg enc).2.filter PrimCall.isEncrypt).length = 1 ∧
    ((FlattenedEncrypt.sealStep st k0 o jh alg enc).2.filter PrimCall.isKeyManagement)
      = [.keyManagement alg enc st.cek] := by
  unfold FlattenedEncrypt.sealStep
  dsimp only
  cases h1 : st.iv.isNone <;> cases h2 : zipIsDEF jh <;>
    simp [h1, h2, PrimCall.isGenCek, PrimCall.isEncrypt, PrimCall.isKeyManagement,
      List.filter_append, List.filter]

theorem generalKmLoop_trace (p u : Option Header) (enc : String) (cek : Bytes) (o : Oracles) :
    ∀ (rs : List IndividualRecipient) (i : Nat) (res : Except JoseError (List RecipientOut))
      (tr : List PrimCall), generalKmLoop p u enc cek o rs i = (res, tr) →
      (∀ e ∈ tr, ∃ a, e = .keyManagement a enc (some cek)) ∧
      (∀ targets, res = .ok targets → tr.length = rs.length) := by
  intro rs
  induction rs with
  | nil =>
    intro i res tr h
    unfold generalKmLoop at h
    injection h with h1 h2
    subst h1
    subst h2
    exact ⟨fun e he => absurd he (List.not_mem_nil e), fun _ _ => rfl⟩
  | cons r rs ih =>
    intro i res tr h
    simp only [generalKmLoop] at h
    split at h
    · split at h
      · injection h with h1 h2
        subst h1
        subst h2
        exact ⟨fun e he => absurd he (List.not_mem_nil e), fun t ht => Except.noConfusion ht⟩
      · split at h
        · injection h with h1 h2
          subst h1
          subst h2
          refine ⟨fun e he => ?_, fun t ht => Except.noConfusion ht⟩
          rcases List.mem_cons.mp he with hh | hh
          · exact ⟨_, hh⟩
          · exact (ih (i + 1) _ _ rfl).1 e hh
        · rename_i targets' heq
          injection h with h1 h2
          subst h1
          subst h2
          refine ⟨fun e he => ?_, fun t ht => ?_⟩
          · rcases List.mem_cons.mp he with hh | hh
            · exact ⟨_, hh⟩
            · exact (ih (i + 1) _ _ rfl).1 e hh
          · have hlen := (ih (i + 1) _ _ rfl).2 targets' heq
            simp [hlen]
    · split at h
      · injection h with h1 h2
        subst h1
        subst h2
        exact ⟨fun e he => absurd he (List.not_mem_nil e), fun t ht => Except.noConfusion ht⟩
      · split at h
        · injection h with h1 h2
          subst h1
          subst h2
          refine ⟨fun e he => ?_, fun t ht => Except.noConfusion ht⟩
          rcases List.mem_cons.mp he with hh | hh
          · exact ⟨_, hh⟩
          · exact (ih (i + 1) _ _ rfl).1 e hh
        · rename_i targets' heq
          injection h with h1 h2
          subst h1
          subst h2
          refine ⟨fun e he => ?_, fun t ht => ?_⟩
          · rcases List.mem_cons.mp he with hh | hh
            · exact ⟨_, hh⟩
            · exact (ih (i + 1) _ _ rfl).1 e hh
          · have hlen := (ih (i + 1) _ _ rfl).2 targets' heq
            simp [hlen]

/-- C1: in every successful multi-recipient general encryption, exactly one
content-encryption key is generated (the first primitive call, a single
`generateCek`); recipient 0's flattened seal performs the single content
encryption; every recipient performs exactly one key-management call, and
every key-management call in the whole run carries that same generated cek. -/
theorem spec_c1 (st : GeneralEncrypt) (o : Oracles) (jwe : GeneralJWE)
    (tr : List PrimCall) (r0 r1 : IndividualRecipient) (rs : List IndividualRecipient)
    (hrec : st.recipients = r0 :: r1 :: rs)
    (h : st.encrypt o = (.ok jwe, tr)) :
    ∃ enc cek, cek = o.generateCek enc ∧
      tr.head? = some (.genCek enc) ∧
      (tr.filter PrimCall.isGenCek).length = 1 ∧
      (tr.filter PrimCall.isEncrypt).length = 1 ∧
      (tr.filter PrimCall.isKeyManagement).length = st.recipients.length ∧
      (∀ e ∈ tr, e.isKeyManagement = true → e.cekArgOf = some cek) := by
  obtain ⟨pt, recips, ph, uh, aad⟩ := st
  dsimp only at hrec h ⊢
  subst hrec
  simp only [GeneralEncrypt.encrypt] at h
  split at h
  · simp at h
  · rename_i encOpt heqv
    simp only [FlattenedEncrypt.setAdditionalAuthenticatedData,
      FlattenedEncrypt.setContentEncryptionKey, FlattenedEncrypt.setProtectedHeader,
      FlattenedEncrypt.setSharedUnprotectedHeader, FlattenedEncrypt.setUnprotectedHeader,
      FlattenedEncrypt.setKeyManagementParameters, Except.bind] at h
    simp only [Option.isSome_none, Bool.false_eq_true, if_false] at h
    split at h
    · simp at h
    · rename_i fl tr0 heqF
      split at h
      · simp at h
      · rename_i targets heqL
        injection h with h1 h2
        injection h1 with h1
        obtain ⟨alg', enc', hseal⟩ :=
          encryptBody_ok_cases _ r0.key o _ fl tr0
            (flattenedEncrypt_ok_body _ r0.key r0.crit o fl tr0 heqF)
        have htr0 : _ = tr0 := congrArg Prod.snd hseal
        have hF1 : tr0.filter PrimCall.isGenCek = [] := by
          rw [← htr0]
          exact (sealStep_trace _ _ _ _ _ _).1
        have hF2 : (tr0.filter PrimCall.isEncrypt).length = 1 := by
          rw [← htr0]
          exact (sealStep_trace _ _ _ _ _ _).2.1
        have hF3 : tr0.filter PrimCall.isKeyManagement
            = [.keyManagement alg' enc' (some (o.generateCek (encOpt.getD "")))] := by
          rw [← htr0]
          exact (sealStep_trace _ _ _ _ _ _).2.2
        obtain ⟨hLmem, hLlen⟩ := generalKmLoop_trace ph uh (encOpt.getD "")
          (o.generateCek (encOpt.getD "")) o (r1 :: rs) 1
          (generalKmLoop ph uh (encOpt.getD "")
            (o.generateCek (encOpt.getD "")) o (r1 :: rs) 1).1
          (generalKmLoop ph uh (encOpt.getD "")
            (o.generateCek (encOpt.getD "")) o (r1 :: rs) 1).2
          rfl
        have hLoopLen := hLlen targets heqL
        have hLoopGen : ((generalKmLoop ph uh (encOpt.getD "")
            (o.generateCek (encOpt.getD "")) o (r1 :: rs) 1).2.filter
              PrimCall.isGenCek) = [] := by
          refine List.filter_eq_nil_iff.mpr fun e he => ?_
          obtain ⟨a, ha⟩ := hLmem e he
          subst ha
          simp [PrimCall.isGenCek]
        have hLoopEnc : ((generalKmLoop ph uh (encOpt.getD "")
            (o.generateCek (encOpt.getD "")) o (r1 :: rs) 1).2.filter
              PrimCall.isEncrypt) = [] := by
          refine List.filter_eq_nil_iff.mpr fun e he => ?_
          obtain ⟨a, ha⟩ := hLmem e he
          subst ha
          simp [PrimCall.isEncrypt]
        have hLoopKM : ((generalKmLoop ph uh (encOpt.getD "")
            (o.generateCek (encOpt.getD "")) o (r1 :: rs) 1).2.filter
              PrimCall.isKeyManagement)
            = (generalKmLoop ph uh (encOpt.getD "")
                (o.generateCek (encOpt.getD "")) o (r1 :: rs) 1).2 := by
          refine List.filter_eq_self.mpr fun e he => ?_
          obtain ⟨a, ha⟩ := hLmem e he
          subst ha
          rfl
        have htr : tr = PrimCall.genCek (encOpt.getD "") :: (tr0 ++
            (generalKmLoop ph uh (encOpt.getD "") (o.generateCek (encOpt.getD "")) o
              (r1 :: rs) 1).2) := h2.symm
        rw [htr]
        generalize hL2 : (generalKmLoop ph uh (encOpt.getD "")
          (o.generateCek (encOpt.getD "")) o (r1 :: rs) 1).2 = L
          at hLoopGen hLoopEnc hLoopKM hLoopLen hLmem ⊢
        refine ⟨encOpt.getD "", o.generateCek (encOpt.getD ""), rfl, rfl, ?_, ?_, ?_, ?_⟩
        · simp [List.filter_cons, List.filter_append, hF1, hLoopGen, PrimCall.isGenCek]
        · simp [List.filter_cons, List.filter_append, hLoopEnc, PrimCall.isEncrypt, hF2]
        · simp [List.filter_cons, List.filter_append, hF3, hLoopKM,
            PrimCall.isKeyManagement]
          rw [hLoopLen]
          rfl
        · intro e he hkm
          rcases List.mem_cons.mp he with rfl | he2
          · simp [PrimCall.isKeyManagement] at hkm
          · rcases List.mem_append.mp he2 with h0 | hL
            · have hmem : e ∈ tr0.filter PrimCall.isKeyManagement :=
                List.mem_filter.mpr ⟨h0, hkm⟩
              rw [hF3] at hmem
              simp at hmem
              subst hmem
              rfl
            · obtain ⟨a, ha⟩ := hLmem e hL
              subst ha
              rfl

def c1wr0 : IndividualRecipient := {
  key := 0
  unprotectedHeader := some [("alg", .str "A128KW"), ("enc", .str "A128GCM")] }

def c1wr1 : IndividualRecipient := {
  key := 1
  unprotectedHeader := some [("alg", .str "A128KW"), ("enc", .str "A128GCM")] }

def c1w : GeneralEncrypt := {
  plaintext := [104]
  recipients := [c1wr0, c1wr1] }

def c1wJwe : GeneralJWE :=
  match (c1w.encrypt oraclesX).1 with
  | .ok j => j
  | .error _ => { ciphertext := "", iv := "", tag := "", recipients := [] }

def c1wTr : List PrimCall := (c1w.encrypt oraclesX).2

theorem spec_c1_witness :
    c1w.recipients = c1wr0 :: c1wr1 :: [] ∧
    ∃ enc cek, cek = oraclesX.generateCek enc ∧
      c1wTr.head? = some (.genCek enc) ∧
      (c1wTr.filter PrimCall.isGenCek).length = 1 ∧
      (c1wTr.filter PrimCall.isEncrypt).length = 1 ∧
      (c1wTr.filter PrimCall.isKeyManagement).length = c1w.recipients.length ∧
      (∀ e ∈ c1wTr, e.isKeyManagement = true → e.cekArgOf = some cek) :=
  ⟨rfl, spec_c1 c1w oraclesX c1wJwe c1wTr c1wr0 c1wr1 [] (by rfl) (by rfl)⟩
